import Mathlib

/-!
# AttendanceTracker: formal model of the date-key codec, statistics, and attendance store

This file is a shallow embedding, in Lean 4, of the core logic of the
AttendanceTracker web application:

* `src/lib/dateUtils.ts` — `formatDateKey`, `parseDateKey`, `countRolling13Weeks`
  (together with the parts of the JavaScript `Date` semantics they rely on:
  the `new Date(year, monthIndex, day)` constructor with its component
  normalisation and two-digit-year mapping, and the `getFullYear` /
  `getMonth` / `getDate` accessors, all on the local-calendar day level),
* `src/store/attendanceStore.ts` — the Zustand attendance store
  (`hydrate`, `toggleDate`, `isPresent`, `replaceAll`, `mergeWith`,
  `clearAll`), with the single `await` suspension point of `hydrate` and
  `toggleDate` made explicit by splitting each into its synchronous prefix
  and its continuation.

Days are modelled at calendar-day granularity as integers counting days from
1970-01-01 (the code under consideration always truncates the time of day
before comparing, so nothing finer is needed). The civil-calendar conversions
use the standard era-based algorithms for the proleptic Gregorian calendar,
which is exactly the calendar ECMAScript prescribes for `Date`.
-/

/-- Proleptic Gregorian leap-year test, as prescribed by ECMAScript
`DaysInYear`. -/
def isLeap (y : Int) : Bool :=
  (y % 4 = 0 && y % 100 != 0) || y % 400 = 0

/-- Number of days of month `m` (1..12) of year `y`. -/
def daysInMonth (y m : Int) : Int :=
  if m = 2 then (if isLeap y then 29 else 28)
  else if m = 4 ∨ m = 6 ∨ m = 9 ∨ m = 11 then 30 else 31

/-- The year shifted so that it starts on March 1 (January and February
belong to the previous shifted year). -/
def shiftedY (y m : Int) : Int := if m ≤ 2 then y - 1 else y

/-- Day of the shifted year on which month `m` starts: 0 for March, …,
337 for February. -/
def monthOffset (m : Int) : Int := (153 * ((m + 9) % 12) + 2) / 5

/-- Day number (days since 1970-01-01) of the civil date `(y, m, d)`,
for `m` in 1..12. Era-based conversion for the proleptic Gregorian
calendar; all divisions are by positive constants, and `Int`'s `/` and `%`
round toward negative infinity there, as the algorithm requires. -/
def daysFromCivil (y m d : Int) : Int :=
  shiftedY y m / 400 * 146097
    + ((shiftedY y m % 400) * 365 + shiftedY y m % 400 / 4 - shiftedY y m % 400 / 100
        + (monthOffset m + d - 1))
    - 719468

/-- Day of the 400-year era (0 ≤ doe ≤ 146096) of a day number. -/
def doeOf (z : Int) : Int := (z + 719468) % 146097

/-- Era (400-year block) of a day number. -/
def eraOf (z : Int) : Int := (z + 719468) / 146097

/-- Year of the era (0..399) of a day number. -/
def yoeOf (z : Int) : Int :=
  (doeOf z - doeOf z / 1460 + doeOf z / 36524 - doeOf z / 146096) / 365

/-- Day of the shifted year (0..365) of a day number. -/
def doyOf (z : Int) : Int := doeOf z - (365 * yoeOf z + yoeOf z / 4 - yoeOf z / 100)

/-- Shifted month (0 = March .. 11 = February) of a day number. -/
def mpOf (z : Int) : Int := (5 * doyOf z + 2) / 153

/-- Day of month (1..31) of a day number; models `Date.prototype.getDate`. -/
def dayOf (z : Int) : Int := doyOf z - (153 * mpOf z + 2) / 5 + 1

/-- Civil month (1..12) of a day number; `Date.prototype.getMonth` returns
this minus one. -/
def monthOf (z : Int) : Int := if mpOf z < 10 then mpOf z + 3 else mpOf z - 9

/-- Civil year of a day number; models `Date.prototype.getFullYear`. -/
def yearOf (z : Int) : Int := yoeOf z + eraOf z * 400 + (if monthOf z ≤ 2 then 1 else 0)

/-- Civil date `(y, m, d)` of a day number: the inverse of `daysFromCivil`. -/
def civilFromDays (z : Int) : Int × Int × Int := (yearOf z, monthOf z, dayOf z)

set_option maxHeartbeats 4000000 in
/-- Recovering the year of the era from the day of the era: the division
by 365 with the three correction terms undoes `doe = 365⬝yoe + yoe/4 -
yoe/100 + doy`. The hypothesis ties `doy = 365` (the leap day, at the end
of the shifted year) to the year actually being a leap year. -/
theorem yoe_recover (yoe doy : Int) (h1 : 0 ≤ yoe) (h2 : yoe ≤ 399)
    (h3 : 0 ≤ doy) (h4 : doy ≤ 365)
    (h5 : doy = 365 → ((yoe + 1) % 4 = 0 ∧ (yoe + 1) % 100 ≠ 0) ∨ yoe = 399) :
    (365 * yoe + yoe / 4 - yoe / 100 + doy
      - (365 * yoe + yoe / 4 - yoe / 100 + doy) / 1460
      + (365 * yoe + yoe / 4 - yoe / 100 + doy) / 36524
      - (365 * yoe + yoe / 4 - yoe / 100 + doy) / 146096) / 365 = yoe := by
  interval_cases yoe <;> omega

set_option maxHeartbeats 1600000 in
/-- Workhorse for the conversion round trip: reading the civil date back
from a day number written in era/year-of-era/day-of-year form. `yA` is the
shifted year, `mp` the shifted month, `L` the length of that month, with
the leap-day correlation supplied as a hypothesis. -/
theorem civilFromDays_eq (z yA mp d L : Int)
    (hz : z = yA / 400 * 146097
      + ((yA % 400) * 365 + yA % 400 / 4 - yA % 400 / 100 + ((153 * mp + 2) / 5 + d - 1))
      - 719468)
    (hmp1 : 0 ≤ mp) (hmp2 : mp ≤ 11)
    (hL : L = 28 ∨ L = 29 ∨ L = 30 ∨ L = 31)
    (hL29 : mp = 11 → L ≤ 29)
    (hL30 : mp = 1 ∨ mp = 3 ∨ mp = 6 ∨ mp = 8 → L ≤ 30)
    (hfeb : mp = 11 → L = 29 →
      ((yA + 1) % 4 = 0 ∧ (yA + 1) % 100 ≠ 0) ∨ (yA + 1) % 400 = 0)
    (hd1 : 1 ≤ d) (hd2 : d ≤ L) :
    civilFromDays z =
      (yA + (if 10 ≤ mp then 1 else 0), (if mp < 10 then mp + 3 else mp - 9), d) := by
  have hdoe : doeOf z
      = (yA % 400) * 365 + yA % 400 / 4 - yA % 400 / 100 + ((153 * mp + 2) / 5 + d - 1) := by
    unfold doeOf
    interval_cases mp <;> omega
  have hera : eraOf z = yA / 400 := by
    unfold eraOf
    interval_cases mp <;> omega
  have hyoe : yoeOf z = yA % 400 := by
    have key := yoe_recover (yA % 400) ((153 * mp + 2) / 5 + d - 1)
      (by omega) (by omega) (by interval_cases mp <;> omega)
      (by interval_cases mp <;> omega)
      (by
        intro h365
        have hmp11 : mp = 11 := by interval_cases mp <;> omega
        have hL29' : L = 29 := by omega
        have := hfeb hmp11 hL29'
        omega)
    unfold yoeOf
    omega
  have hdoy : doyOf z = (153 * mp + 2) / 5 + d - 1 := by
    unfold doyOf
    omega
  have hmpOf : mpOf z = mp := by
    unfold mpOf
    rw [hdoy]
    rcases hL with rfl | rfl | rfl | rfl <;> interval_cases mp <;> omega
  have hday : dayOf z = d := by
    unfold dayOf
    rw [hdoy, hmpOf]
    omega
  have hmonth : monthOf z = (if mp < 10 then mp + 3 else mp - 9) := by
    unfold monthOf
    rw [hmpOf]
  have hyear : yearOf z = yA + (if 10 ≤ mp then 1 else 0) := by
    unfold yearOf
    rw [hmonth, hyoe, hera]
    split_ifs <;> omega
  unfold civilFromDays
  rw [hyear, hmonth, hday]

/-- Round trip of the civil-calendar conversions: converting a real calendar
date to its day number and back is the identity. -/
theorem civil_roundtrip (y m d : Int) (hm1 : 1 ≤ m) (hm2 : m ≤ 12)
    (hd1 : 1 ≤ d) (hd2 : d ≤ daysInMonth y m) :
    civilFromDays (daysFromCivil y m d) = (y, m, d) := by
  have hdim : daysInMonth y m = 28 ∨ daysInMonth y m = 29
      ∨ daysInMonth y m = 30 ∨ daysInMonth y m = 31 := by
    unfold daysInMonth
    split_ifs <;> simp
  have hleap : daysInMonth y 2 = 29 →
      (y % 4 = 0 ∧ y % 100 ≠ 0) ∨ y % 400 = 0 := by
    unfold daysInMonth isLeap
    simp only [reduceIte]
    split_ifs with hLp
    · simp only [Bool.or_eq_true, Bool.and_eq_true, decide_eq_true_eq, bne_iff_ne,
        ne_eq] at hLp
      exact fun _ => hLp
    · omega
  interval_cases m
  · have h := civilFromDays_eq (daysFromCivil y 1 d) (y - 1) 10 d (daysInMonth y 1)
      (by unfold daysFromCivil shiftedY monthOffset; omega)
      (by omega) (by omega) hdim (by omega) (by omega) (by omega) hd1 hd2
    simpa using h
  · have h := civilFromDays_eq (daysFromCivil y 2 d) (y - 1) 11 d (daysInMonth y 2)
      (by unfold daysFromCivil shiftedY monthOffset; omega)
      (by omega) (by omega) hdim
      (by intro _; unfold daysInMonth isLeap; split_ifs <;> omega)
      (by omega)
      (by intro _ hL29; have := hleap hL29; omega)
      hd1 hd2
    simpa using h
  · have h := civilFromDays_eq (daysFromCivil y 3 d) y 0 d (daysInMonth y 3)
      (by unfold daysFromCivil shiftedY monthOffset; omega)
      (by omega) (by omega) hdim (by omega) (by omega) (by omega) hd1 hd2
    simpa using h
  · have h := civilFromDays_eq (daysFromCivil y 4 d) y 1 d (daysInMonth y 4)
      (by unfold daysFromCivil shiftedY monthOffset; omega)
      (by omega) (by omega) hdim (by omega)
      (by intro _; unfold daysInMonth; simp) (by omega) hd1 hd2
    simpa using h
  · have h := civilFromDays_eq (daysFromCivil y 5 d) y 2 d (daysInMonth y 5)
      (by unfold daysFromCivil shiftedY monthOffset; omega)
      (by omega) (by omega) hdim (by omega) (by omega) (by omega) hd1 hd2
    simpa using h
  · have h := civilFromDays_eq (daysFromCivil y 6 d) y 3 d (daysInMonth y 6)
      (by unfold daysFromCivil shiftedY monthOffset; omega)
      (by omega) (by omega) hdim (by omega)
      (by intro _; unfold daysInMonth; simp) (by omega) hd1 hd2
    simpa using h
  · have h := civilFromDays_eq (daysFromCivil y 7 d) y 4 d (daysInMonth y 7)
      (by unfold daysFromCivil shiftedY monthOffset; omega)
      (by omega) (by omega) hdim (by omega) (by omega) (by omega) hd1 hd2
    simpa using h
  · have h := civilFromDays_eq (daysFromCivil y 8 d) y 5 d (daysInMonth y 8)
      (by unfold daysFromCivil shiftedY monthOffset; omega)
      (by omega) (by omega) hdim (by omega) (by omega) (by omega) hd1 hd2
    simpa using h
  · have h := civilFromDays_eq (daysFromCivil y 9 d) y 6 d (daysInMonth y 9)
      (by unfold daysFromCivil shiftedY monthOffset; omega)
      (by omega) (by omega) hdim (by omega)
      (by intro _; unfold daysInMonth; simp) (by omega) hd1 hd2
    simpa using h
  · have h := civilFromDays_eq (daysFromCivil y 10 d) y 7 d (daysInMonth y 10)
      (by unfold daysFromCivil shiftedY monthOffset; omega)
      (by omega) (by omega) hdim (by omega) (by omega) (by omega) hd1 hd2
    simpa using h
  · have h := civilFromDays_eq (daysFromCivil y 11 d) y 8 d (daysInMonth y 11)
      (by unfold daysFromCivil shiftedY monthOffset; omega)
      (by omega) (by omega) hdim (by omega)
      (by intro _; unfold daysInMonth; simp) (by omega) hd1 hd2
    simpa using h
  · have h := civilFromDays_eq (daysFromCivil y 12 d) y 9 d (daysInMonth y 12)
      (by unfold daysFromCivil shiftedY monthOffset; omega)
      (by omega) (by omega) hdim (by omega) (by omega) (by omega) hd1 hd2
    simpa using h

/-!
## The JavaScript `Date` constructor and number/string primitives

`parseDateKey` relies on `String.prototype.split`, `Number`, and
`new Date(year, monthIndex, day)`; `formatDateKey` relies on `String(n)`
and `String.prototype.padStart`. These are modelled here. Strings are
handled as their lists of characters.
-/

/-- ECMAScript `MakeDay(year, month, date)`: the month index is normalised
into the year by floored division, and the day is added linearly (out of
range days roll over into adjacent months). -/
def jsMakeDay (year month day : Int) : Int :=
  daysFromCivil (year + month / 12) (month % 12 + 1) day

/-- The two-digit-year rule of the `Date` constructor: years 0..99 are
interpreted as 1900..1999. -/
def jsYearAdj (year : Int) : Int := if 0 ≤ year ∧ year ≤ 99 then 1900 + year else year

/-- Constructor `new Date(year, monthIndex, day)` at local midnight, as a day number.
`none` is an `Invalid Date` (time value `NaN`): produced when the time
value falls outside ECMAScript's ±100 000 000-day range. The case of a
`NaN` argument is handled at the call site (`parseDateKey`). -/
def jsDateCtor (year monthIdx day : Int) : Option Int :=
  if -100000000 ≤ jsMakeDay (jsYearAdj year) monthIdx day
      ∧ jsMakeDay (jsYearAdj year) monthIdx day ≤ 100000000 then
    some (jsMakeDay (jsYearAdj year) monthIdx day)
  else none

/-- The decimal digits, as a character class. -/
def jsIsDigit (c : Char) : Bool := 48 ≤ c.toNat && c.toNat ≤ 57

/-- Numeric value of a decimal digit character. -/
def digitVal (c : Char) : Nat := c.toNat - 48

/-- Character of a decimal digit value. -/
def digitChar (n : Nat) : Char := Char.ofNat (48 + n)

/-- ECMAScript whitespace as stripped by `Number(string)`: tab, line
terminators, vertical tab, form feed, space, no-break space, BOM. -/
def jsIsSpace (c : Char) : Bool :=
  c.toNat = 9 || c.toNat = 10 || c.toNat = 11 || c.toNat = 12 || c.toNat = 13
    || c.toNat = 32 || c.toNat = 160 || c.toNat = 65279

/-- Strip leading and trailing whitespace, as `Number(string)` does. -/
def trimChars (cs : List Char) : List Char :=
  ((cs.dropWhile jsIsSpace).reverse.dropWhile jsIsSpace).reverse

/-- Value of a string of decimal digits; `none` as soon as a non-digit
occurs. The empty list yields 0 (callers rule it out where JS does). -/
def parseDigitsList (cs : List Char) : Option Nat :=
  cs.foldl
    (fun acc c => acc.bind fun a => if jsIsDigit c then some (10 * a + digitVal c) else none)
    (some 0)

/-- Model of `Number(string)` restricted to the literal forms that can reach it in
this codebase: after whitespace trimming, an optionally signed string of
decimal digits ("" is 0). `none` models `NaN`. Hexadecimal, fractional and
exponent literals — which no date key contains — are not modelled and also
map to `none`. -/
def jsNumber (cs : List Char) : Option Int :=
  match trimChars cs with
  | [] => some 0
  | c :: rest =>
    if c = '-' then
      if rest = [] then none else (parseDigitsList rest).map fun n => -(n : Int)
    else if c = '+' then
      if rest = [] then none else (parseDigitsList rest).map fun n => (n : Int)
    else (parseDigitsList (c :: rest)).map fun n => (n : Int)

/-- Model of `String.prototype.split("-")`: pieces between the dashes, keeping empty
pieces; the empty string yields one empty piece. -/
def splitDash : List Char → List (List Char)
  | [] => [[]]
  | c :: rest =>
    if c = '-' then [] :: splitDash rest
    else
      match splitDash rest with
      | [] => [[c]]
      | p :: ps => (c :: p) :: ps

/-- Decimal digits of a natural number, most significant first; structural
recursion on a fuel argument (the fuel is an upper bound on the number, so
the recursion never exhausts it). -/
def natCharsAux : Nat → Nat → List Char
  | 0, _ => []
  | fuel + 1, n =>
    if n < 10 then [digitChar n] else natCharsAux fuel (n / 10) ++ [digitChar (n % 10)]

/-- Decimal representation of a natural number, as `String(n)` produces. -/
def natChars (n : Nat) : List Char := natCharsAux (n + 1) n

/-- Decimal representation of an integer, as `String(n)` produces. -/
def intChars (i : Int) : List Char :=
  if i < 0 then '-' :: natChars (-i).toNat else natChars i.toNat

/-- Model of `String(n).padStart(2, "0")`. -/
def pad2 (cs : List Char) : List Char :=
  if 2 ≤ cs.length then cs else List.replicate (2 - cs.length) '0' ++ cs

/-- Function `formatDateKey` (src/lib/dateUtils.ts): renders a `Date` as
`` `${year}-${month}-${day}` `` with `getMonth() + 1` and the month and day
zero-padded to two characters (the year is not padded). -/
def formatDateKey (z : Int) : String :=
  String.mk (intChars (yearOf z) ++ '-' :: (pad2 (intChars (monthOf z)) ++ '-' :: pad2 (intChars (dayOf z))))

/-- Function `parseDateKey` (src/lib/dateUtils.ts): splits the key on `"-"`, maps
`Number` over the pieces, and builds `new Date(year, month - 1, day)` from
the first three (a missing piece is `undefined`, which, like a `NaN`
piece, makes the constructor produce an `Invalid Date`, modelled `none`). -/
def parseDateKey (key : String) : Option Int :=
  match ((splitDash key.data).map jsNumber).getD 0 none,
      ((splitDash key.data).map jsNumber).getD 1 none,
      ((splitDash key.data).map jsNumber).getD 2 none with
  | some year, some month, some day => jsDateCtor year (month - 1) day
  | _, _, _ => none

/-- Function `countRolling13Weeks` (src/lib/dateUtils.ts): counts the date keys
whose day lies between `subWeeks(todayStart, 13)` — 13·7 = 91 days before
`today` — and `today`, both ends included. At day-number granularity the
source's truncations of `today` and of each parsed date to the start of
their day are the identity, and `subWeeks(·, 13)` is subtraction of 91.
A key whose parse is an `Invalid Date` compares false on both bounds. -/
def countRolling13Weeks (dates : List String) (today : Int) : Nat :=
  (dates.filter fun dateKey =>
    match parseDateKey dateKey with
    | some date => decide (today - 91 ≤ date) && decide (date ≤ today)
    | none => false).length

/-!
## The attendance store (src/store/attendanceStore.ts)

The store state is the Zustand state record. The injected repository is an
external collaborator: the store only inspects whether it is bound, and
the settled outcome of each repository call enters the model as an
explicit argument of the operation (`Except` value: `.error` is a rejected
promise). A rejected value carries `some message` when it is an `Error`
and `none` otherwise. `hydrate` and `toggleDate` suspend exactly once, at
their `await`; each is split into its synchronous prefix (`…Start`) and
its continuation (`…Settle`), composed by the run-to-completion function.
Each operation also returns the list of `console.error` labels it logs.
-/

/-- The state record of `useAttendanceStore`. -/
structure AttendanceState where
  dates : List String
  isLoading : Bool
  error : Option String
  _repository : Option Unit
  deriving Repr, DecidableEq

/-- The initial store state. -/
def initialState : AttendanceState :=
  { dates := [], isLoading := false, error := none, _repository := none }

/-- Action `setRepository`: bind the injected repository. -/
def setRepository (s : AttendanceState) : AttendanceState :=
  { s with _repository := some () }

/-- Query `isPresent(date)`: membership in the in-memory set. -/
def isPresent (s : AttendanceState) (date : String) : Bool :=
  s.dates.contains date

/-- The message recorded by `hydrate` on failure:
`err instanceof Error ? err.message : 'Failed to load attendance data'`. -/
def hydrateErrorMessage (err : Option String) : String :=
  err.getD "Failed to load attendance data"

/-- Synchronous prefix of `hydrate`, up to its `await`: on a missing
repository, log and stop (`false`); otherwise set the loading flag, clear
the error, and start the fetch (`true`). -/
def hydrateStart (s : AttendanceState) : AttendanceState × Bool × List String :=
  if s._repository.isNone then
    (s, false, ["Repository not initialized. Call setRepository first."])
  else
    ({ s with isLoading := true, error := none }, true, [])

/-- Continuation of `hydrate` once `getAllDates` has settled, applied to
the store state current at that moment. -/
def hydrateSettle (outcome : Except (Option String) (List String))
    (s : AttendanceState) : AttendanceState × List String :=
  match outcome with
  | .ok dates => ({ s with dates := dates, isLoading := false }, [])
  | .error err =>
    ({ s with error := some (hydrateErrorMessage err), isLoading := false },
      ["Hydration error:"])

/-- Operation `hydrate` run to completion with no interleaved operation between its
synchronous prefix and its continuation. -/
def hydrate (s : AttendanceState) (outcome : Except (Option String) (List String)) :
    AttendanceState × List String :=
  match hydrateStart s with
  | (s1, false, log) => (s1, log)
  | (s1, true, log) =>
    match hydrateSettle outcome s1 with
    | (s2, log2) => (s2, log ++ log2)

/-- Synchronous prefix of `toggleDate`, up to its `await`: on a missing
repository, log and stop (`none`); otherwise apply the optimistic toggle
and clear the error, returning (`some`) the captured pre-toggle `dates`
snapshot for the rollback closure. -/
def toggleDateStart (s : AttendanceState) (date : String) :
    AttendanceState × Option (List String) × List String :=
  if s._repository.isNone then
    (s, none, ["Repository not initialized. Call setRepository first."])
  else
    ({ s with
        dates := if s.dates.contains date then s.dates.filter (fun d => d != date)
          else s.dates ++ [date],
        error := none },
      some s.dates, [])

/-- Continuation of `toggleDate` once the repository's `toggleDate` call
has settled, applied to the store state current at that moment: on
success, nothing; on failure, install the captured snapshot verbatim, set
the user-facing message, and re-throw the original rejected value. -/
def toggleDateSettle (snapshot : List String) (outcome : Except (Option String) Bool)
    (s : AttendanceState) : AttendanceState × Except (Option String) Unit × List String :=
  match outcome with
  | .ok _ => (s, .ok (), [])
  | .error err =>
    ({ s with dates := snapshot, error := some "Failed to update attendance. Please try again." },
      .error err, ["Toggle error:"])

/-- Operation `toggleDate` run to completion with no interleaved operation between
its synchronous prefix and its continuation. -/
def toggleDate (s : AttendanceState) (date : String)
    (outcome : Except (Option String) Bool) :
    AttendanceState × Except (Option String) Unit × List String :=
  match toggleDateStart s date with
  | (s1, none, log) => (s1, .ok (), log)
  | (s1, some snapshot, log) =>
    match toggleDateSettle snapshot outcome s1 with
    | (s2, res, log2) => (s2, res, log ++ log2)

/-- Model of `Array.from(new Set(l))`: the distinct elements of `l`, first
occurrences, in order; `seen` is the set built so far. -/
def jsSetDedupAux (seen : List String) : List String → List String
  | [] => []
  | d :: rest =>
    if seen.contains d then jsSetDedupAux seen rest
    else d :: jsSetDedupAux (seen ++ [d]) rest

/-- Model of `Array.from(new Set(l))`. -/
def jsSetDedup (l : List String) : List String := jsSetDedupAux [] l

/-- Action `replaceAll(dates)`: install the deduplicated input. -/
def replaceAll (s : AttendanceState) (dates : List String) : AttendanceState :=
  { s with dates := jsSetDedup dates }

/-- Action `mergeWith(dates)`: install the deduplicated concatenation of the
current set and the input. -/
def mergeWith (s : AttendanceState) (dates : List String) : AttendanceState :=
  { s with dates := jsSetDedup (s.dates ++ dates) }

/-- Action `clearAll()`: reset to the empty set with flags cleared. -/
def clearAll (s : AttendanceState) : AttendanceState :=
  { s with dates := [], isLoading := false, error := none }

/-!
## Character and digit-string lemmas

Facts about the string primitives, needed to evaluate `parseDateKey` and
`formatDateKey` on symbolic digit strings.
-/

theorem digit_toNat {c : Char} (h : jsIsDigit c = true) : 48 ≤ c.toNat ∧ c.toNat ≤ 57 := by
  simpa [jsIsDigit, Bool.and_eq_true, decide_eq_true_eq] using h

theorem digit_not_space {c : Char} (h : jsIsDigit c = true) : jsIsSpace c = false := by
  have hb := digit_toNat h
  simp only [jsIsSpace, Bool.or_eq_false_iff, decide_eq_false_iff_not]
  omega

theorem digit_ne_dash {c : Char} (h : jsIsDigit c = true) : ¬(c = '-') := by
  have hb := digit_toNat h
  intro hc
  subst hc
  have h45 : ('-').toNat = 45 := rfl
  omega

theorem digit_ne_plus {c : Char} (h : jsIsDigit c = true) : ¬(c = '+') := by
  have hb := digit_toNat h
  intro hc
  subst hc
  have h43 : ('+').toNat = 43 := rfl
  omega

theorem dropWhile_eq_self_of {p : Char → Bool} {l : List Char}
    (h : ∀ c ∈ l, p c = false) : l.dropWhile p = l := by
  cases l with
  | nil => rfl
  | cons a t => simp [List.dropWhile_cons, h a (List.mem_cons_self a t)]

theorem trimChars_eq_self {cs : List Char} (h : ∀ c ∈ cs, jsIsSpace c = false) :
    trimChars cs = cs := by
  unfold trimChars
  rw [dropWhile_eq_self_of h,
    dropWhile_eq_self_of (fun c hc => h c (List.mem_reverse.mp hc)),
    List.reverse_reverse]

theorem splitDash_nodash {cs : List Char} (h : ∀ c ∈ cs, ¬(c = '-')) :
    splitDash cs = [cs] := by
  induction cs with
  | nil => rfl
  | cons a t ih =>
    have ht := ih fun c hc => h c (List.mem_cons_of_mem a hc)
    simp [splitDash, h a (List.mem_cons_self a t), ht]

theorem splitDash_append {a rest : List Char} (h : ∀ c ∈ a, ¬(c = '-')) :
    splitDash (a ++ '-' :: rest) = a :: splitDash rest := by
  induction a with
  | nil => simp [splitDash]
  | cons x t ih =>
    have ht := ih fun c hc => h c (List.mem_cons_of_mem x hc)
    simp only [List.cons_append, splitDash, if_neg (h x (List.mem_cons_self x t)),
      List.append_eq, ht]

/-- The accumulated decimal value of a digit string. -/
def digitsVal (cs : List Char) : Nat := cs.foldl (fun a c => 10 * a + digitVal c) 0

theorem parseDigitsList_digits {cs : List Char} (h : ∀ c ∈ cs, jsIsDigit c = true) :
    parseDigitsList cs = some (digitsVal cs) := by
  unfold parseDigitsList digitsVal
  suffices hgen : ∀ n : Nat,
      cs.foldl (fun acc c => acc.bind fun a =>
        if jsIsDigit c then some (10 * a + digitVal c) else none) (some n)
      = some (cs.foldl (fun a c => 10 * a + digitVal c) n) by
    exact hgen 0
  induction cs with
  | nil => intro n; rfl
  | cons a t ih =>
    intro n
    simp only [List.foldl_cons, Option.bind_some, if_pos (h a (List.mem_cons_self a t))]
    exact ih (fun c hc => h c (List.mem_cons_of_mem a hc)) _

theorem jsNumber_digits {cs : List Char} (hne : cs ≠ [])
    (h : ∀ c ∈ cs, jsIsDigit c = true) :
    jsNumber cs = some ((digitsVal cs : Nat) : Int) := by
  unfold jsNumber
  rw [trimChars_eq_self fun c hc => digit_not_space (h c hc)]
  cases cs with
  | nil => exact absurd rfl hne
  | cons a t =>
    have ha := h a (List.mem_cons_self a t)
    simp [if_neg (digit_ne_dash ha), if_neg (digit_ne_plus ha),
      parseDigitsList_digits h]

theorem digitChar_toNat {n : Nat} (h : n ≤ 9) : (digitChar n).toNat = 48 + n := by
  interval_cases n <;> rfl

theorem digitChar_isDigit {n : Nat} (h : n ≤ 9) : jsIsDigit (digitChar n) = true := by
  simp only [jsIsDigit, Bool.and_eq_true, decide_eq_true_eq, digitChar_toNat h]
  omega

theorem digitVal_digitChar {n : Nat} (h : n ≤ 9) : digitVal (digitChar n) = n := by
  simp [digitVal, digitChar_toNat h]

theorem natCharsAux_digits {fuel n : Nat} :
    ∀ c ∈ natCharsAux fuel n, jsIsDigit c = true := by
  induction fuel generalizing n with
  | zero => simp [natCharsAux]
  | succ fuel ih =>
    intro c hc
    unfold natCharsAux at hc
    split at hc
    · simp only [List.mem_singleton] at hc
      subst hc
      exact digitChar_isDigit (by omega)
    · simp only [List.mem_append, List.mem_singleton] at hc
      rcases hc with hc | hc
      · exact ih c hc
      · subst hc
        exact digitChar_isDigit (by omega)

theorem natChars_digits {n : Nat} : ∀ c ∈ natChars n, jsIsDigit c = true :=
  natCharsAux_digits

theorem natCharsAux_ne_nil {fuel n : Nat} (h : n < fuel) : natCharsAux fuel n ≠ [] := by
  cases fuel with
  | zero => omega
  | succ fuel =>
    unfold natCharsAux
    split
    · simp
    · simp

theorem natChars_ne_nil {n : Nat} : natChars n ≠ [] :=
  natCharsAux_ne_nil (Nat.lt_succ_self n)

theorem natCharsAux_val {fuel n : Nat} (h : n < fuel) :
    ∀ acc : Nat, (natCharsAux fuel n).foldl (fun a c => 10 * a + digitVal c) acc
      = acc * 10 ^ (natCharsAux fuel n).length + n := by
  induction fuel generalizing n with
  | zero => omega
  | succ fuel ih =>
    intro acc
    unfold natCharsAux
    split
    · next hlt =>
      simp [digitVal_digitChar (by omega : n ≤ 9)]
      omega
    · next hge =>
      have hrec : n / 10 < fuel := by omega
      rw [List.foldl_append, ih hrec acc, List.length_append]
      simp only [List.foldl_cons, List.foldl_nil, List.length_singleton,
        digitVal_digitChar (by omega : n % 10 ≤ 9)]
      rw [pow_succ]
      have h10 : 10 * (n / 10) + n % 10 = n := by omega
      ring_nf
      omega

theorem digitsVal_natChars {n : Nat} : digitsVal (natChars n) = n := by
  unfold digitsVal natChars
  rw [natCharsAux_val (Nat.lt_succ_self n) 0]
  simp

theorem jsNumber_natChars {n : Nat} : jsNumber (natChars n) = some (n : Int) := by
  rw [jsNumber_digits natChars_ne_nil natChars_digits, digitsVal_natChars]

theorem pad2_digits {cs : List Char} (h : ∀ c ∈ cs, jsIsDigit c = true) :
    ∀ c ∈ pad2 cs, jsIsDigit c = true := by
  unfold pad2
  split
  · exact h
  · intro c hc
    simp only [List.mem_append] at hc
    rcases hc with hc | hc
    · have : c = '0' := List.eq_of_mem_replicate hc
      subst this
      decide
    · exact h c hc

theorem pad2_ne_nil {cs : List Char} (h : cs ≠ []) : pad2 cs ≠ [] := by
  unfold pad2
  split
  · exact h
  · simp [h]

theorem digitsVal_pad2 {cs : List Char} : digitsVal (pad2 cs) = digitsVal cs := by
  unfold pad2
  split
  · rfl
  · unfold digitsVal
    rw [List.foldl_append]
    have : ∀ k : Nat, (List.replicate k '0').foldl (fun a c => 10 * a + digitVal c) 0 = 0 := by
      intro k
      induction k with
      | zero => rfl
      | succ k ihk => simpa [List.replicate_succ, digitVal]
    rw [this]

theorem jsNumber_pad2_natChars {n : Nat} : jsNumber (pad2 (natChars n)) = some (n : Int) := by
  rw [jsNumber_digits (pad2_ne_nil natChars_ne_nil) (pad2_digits natChars_digits),
    digitsVal_pad2, digitsVal_natChars]

/-!
## Codec round-trip lemmas
-/

theorem digitVal_le {c : Char} (h : jsIsDigit c = true) : digitVal c ≤ 9 := by
  have := digit_toNat h
  unfold digitVal
  omega

theorem daysInMonth_le_31 (y m : Int) : daysInMonth y m ≤ 31 := by
  unfold daysInMonth
  split_ifs <;> omega

/-- Constructing `new Date(y, m - 1, d)` for an in-range month index is
exactly the civil conversion. -/
theorem jsMakeDay_eq_daysFromCivil (y m d : Int) (hm1 : 1 ≤ m) (hm2 : m ≤ 12) :
    jsMakeDay y (m - 1) d = daysFromCivil y m d := by
  unfold jsMakeDay
  have h1 : y + (m - 1) / 12 = y := by omega
  have h2 : (m - 1) % 12 + 1 = m := by omega
  rw [h1, h2]

/-- For the component ranges producible by a ten-character date key, the
constructed time value is inside ECMAScript's ±100 000 000-day clip, so the
constructor never yields an `Invalid Date`. -/
theorem jsDateCtor_some (y mi d : Int) (hy1 : 0 ≤ y) (hy2 : y ≤ 9999)
    (hm1 : -1 ≤ mi) (hm2 : mi ≤ 98) (hd1 : 0 ≤ d) (hd2 : d ≤ 99) :
    jsDateCtor y mi d = some (jsMakeDay (jsYearAdj y) mi d) := by
  unfold jsDateCtor
  rw [if_pos]
  unfold jsMakeDay jsYearAdj daysFromCivil shiftedY monthOffset
  constructor <;> split_ifs <;> omega

/-- The canonical string of a calendar day: unpadded year, two-digit month
and day. For years ≥ 100 this is exactly the image of `formatDateKey`. -/
def canonicalKey (y m d : Int) : String :=
  String.mk (natChars y.toNat ++ '-' :: (pad2 (natChars m.toNat) ++ '-' :: pad2 (natChars d.toNat)))

theorem parse_canonicalKey (y m d : Int) (hy1 : 100 ≤ y) (hy2 : y ≤ 9999)
    (hm1 : 1 ≤ m) (hm2 : m ≤ 12) (hd1 : 1 ≤ d) (hd2 : d ≤ 31) :
    parseDateKey (canonicalKey y m d) = some (daysFromCivil y m d) := by
  have hnodashY : ∀ c ∈ natChars y.toNat, ¬(c = '-') :=
    fun c hc => digit_ne_dash (natChars_digits c hc)
  have hnodashM : ∀ c ∈ pad2 (natChars m.toNat), ¬(c = '-') :=
    fun c hc => digit_ne_dash (pad2_digits natChars_digits c hc)
  have hnodashD : ∀ c ∈ pad2 (natChars d.toNat), ¬(c = '-') :=
    fun c hc => digit_ne_dash (pad2_digits natChars_digits c hc)
  have hsplit : splitDash (canonicalKey y m d).data
      = [natChars y.toNat, pad2 (natChars m.toNat), pad2 (natChars d.toNat)] := by
    show splitDash (natChars y.toNat ++ '-' :: (pad2 (natChars m.toNat)
      ++ '-' :: pad2 (natChars d.toNat))) = _
    rw [splitDash_append hnodashY, splitDash_append hnodashM, splitDash_nodash hnodashD]
  unfold parseDateKey
  rw [hsplit]
  simp only [List.map_cons, List.map_nil, jsNumber_natChars, jsNumber_pad2_natChars,
    List.getD_cons_zero, List.getD_cons_succ]
  rw [Int.toNat_of_nonneg (by omega : (0:Int) ≤ y),
    Int.toNat_of_nonneg (by omega : (0:Int) ≤ m),
    Int.toNat_of_nonneg (by omega : (0:Int) ≤ d)]
  rw [jsDateCtor_some y (m - 1) d (by omega) (by omega) (by omega) (by omega) (by omega) (by omega)]
  have hyadj : jsYearAdj y = y := by
    unfold jsYearAdj
    rw [if_neg (by omega)]
  rw [hyadj, jsMakeDay_eq_daysFromCivil y m d hm1 hm2]

theorem format_eq_canonicalKey (y m d : Int) (hy1 : 100 ≤ y) (hy2 : y ≤ 9999)
    (hm1 : 1 ≤ m) (hm2 : m ≤ 12) (hd1 : 1 ≤ d) (hd2 : d ≤ daysInMonth y m) :
    formatDateKey (daysFromCivil y m d) = canonicalKey y m d := by
  have h := civil_roundtrip y m d hm1 hm2 hd1 hd2
  unfold civilFromDays at h
  rw [Prod.mk.injEq, Prod.mk.injEq] at h
  obtain ⟨hy, hm, hd⟩ := h
  unfold formatDateKey canonicalKey intChars
  rw [hy, hm, hd, if_neg (by omega : ¬(y < 0)), if_neg (by omega : ¬(m < 0)),
    if_neg (by omega : ¬(d < 0))]

/-!
## The fixed-width key pattern, and totality of `parseDateKey` on it
-/

/-- Modelled from the spec (§4.1): the fixed-width `YYYY-MM-DD` pattern —
four digits, dash, two digits, dash, two digits. Used to state what the
spec says `decode` rejects. -/
def matchesDateKeyShape (key : String) : Bool :=
  match key.data with
  | [y1, y2, y3, y4, s1, m1, m2, s2, d1, d2] =>
    jsIsDigit y1 && jsIsDigit y2 && jsIsDigit y3 && jsIsDigit y4 && (s1 == '-')
      && jsIsDigit m1 && jsIsDigit m2 && (s2 == '-') && jsIsDigit d1 && jsIsDigit d2
  | _ => false

theorem digitsVal_le4 {a b c d : Char} (ha : jsIsDigit a = true) (hb : jsIsDigit b = true)
    (hc : jsIsDigit c = true) (hd : jsIsDigit d = true) : digitsVal [a, b, c, d] ≤ 9999 := by
  have h1 := digitVal_le ha
  have h2 := digitVal_le hb
  have h3 := digitVal_le hc
  have h4 := digitVal_le hd
  simp only [digitsVal, List.foldl_cons, List.foldl_nil]
  omega

theorem digitsVal_le2 {a b : Char} (ha : jsIsDigit a = true) (hb : jsIsDigit b = true) :
    digitsVal [a, b] ≤ 99 := by
  have h1 := digitVal_le ha
  have h2 := digitVal_le hb
  simp only [digitsVal, List.foldl_cons, List.foldl_nil]
  omega

/-- A string matching the fixed-width pattern always parses to a `Date`
(never an `Invalid Date`), whatever its numeric components denote. -/
theorem parseDateKey_shape_isSome (key : String) (h : matchesDateKeyShape key = true) :
    (parseDateKey key).isSome = true := by
  unfold matchesDateKeyShape at h
  split at h
  case _ y1 y2 y3 y4 s1 m1 m2 s2 d1 d2 heq =>
    simp only [Bool.and_eq_true, beq_iff_eq] at h
    obtain ⟨⟨⟨⟨⟨⟨⟨⟨⟨hy1, hy2⟩, hy3⟩, hy4⟩, hs1⟩, hm1⟩, hm2⟩, hs2⟩, hd1⟩, hd2⟩ := h
    subst hs1
    subst hs2
    have hdigY : ∀ c ∈ [y1, y2, y3, y4], jsIsDigit c = true := by
      intro c hcm
      simp only [List.mem_cons, List.not_mem_nil, or_false] at hcm
      rcases hcm with rfl | rfl | rfl | rfl <;> assumption
    have hdigM : ∀ c ∈ [m1, m2], jsIsDigit c = true := by
      intro c hcm
      simp only [List.mem_cons, List.not_mem_nil, or_false] at hcm
      rcases hcm with rfl | rfl <;> assumption
    have hdigD : ∀ c ∈ [d1, d2], jsIsDigit c = true := by
      intro c hcm
      simp only [List.mem_cons, List.not_mem_nil, or_false] at hcm
      rcases hcm with rfl | rfl <;> assumption
    have hsplit : splitDash [y1, y2, y3, y4, '-', m1, m2, '-', d1, d2]
        = [[y1, y2, y3, y4], [m1, m2], [d1, d2]] := by
      have e : [y1, y2, y3, y4, '-', m1, m2, '-', d1, d2]
          = [y1, y2, y3, y4] ++ '-' :: ([m1, m2] ++ '-' :: [d1, d2]) := rfl
      rw [e, splitDash_append fun c hcm => digit_ne_dash (hdigY c hcm),
        splitDash_append fun c hcm => digit_ne_dash (hdigM c hcm),
        splitDash_nodash fun c hcm => digit_ne_dash (hdigD c hcm)]
    unfold parseDateKey
    rw [heq, hsplit]
    simp only [List.map_cons, List.map_nil,
      jsNumber_digits (by simp) hdigY, jsNumber_digits (by simp) hdigM,
      jsNumber_digits (by simp) hdigD,
      List.getD_cons_zero, List.getD_cons_succ]
    rw [jsDateCtor_some ((digitsVal [y1, y2, y3, y4] : Nat) : Int)
      (((digitsVal [m1, m2] : Nat) : Int) - 1) ((digitsVal [d1, d2] : Nat) : Int)
      (by omega)
      (by have := digitsVal_le4 hy1 hy2 hy3 hy4; omega)
      (by omega)
      (by have := digitsVal_le2 hm1 hm2; omega)
      (by omega)
      (by have := digitsVal_le2 hd1 hd2; omega)]
    rfl
  case _ => simp at h

/-!
## Store lemmas
-/

theorem contains_iff_mem {l : List String} {a : String} : l.contains a = true ↔ a ∈ l :=
  List.elem_iff

theorem mem_jsSetDedupAux {seen l : List String} {x : String}
    (h : x ∈ jsSetDedupAux seen l) : x ∈ l := by
  induction l generalizing seen with
  | nil => simp [jsSetDedupAux] at h
  | cons d rest ih =>
    unfold jsSetDedupAux at h
    split at h
    · exact List.mem_cons_of_mem d (ih h)
    · rcases List.mem_cons.mp h with rfl | h2
      · exact List.mem_cons_self x rest
      · exact List.mem_cons_of_mem d (ih h2)

theorem not_mem_seen_jsSetDedupAux {seen l : List String} {x : String}
    (h : x ∈ jsSetDedupAux seen l) : ¬ x ∈ seen := by
  induction l generalizing seen with
  | nil => simp [jsSetDedupAux] at h
  | cons d rest ih =>
    unfold jsSetDedupAux at h
    split at h
    · exact ih h
    · next hseen =>
      rcases List.mem_cons.mp h with rfl | h2
      · intro hx
        exact hseen (contains_iff_mem.mpr hx)
      · intro hx
        exact ih h2 (by simp [hx])

theorem jsSetDedupAux_nodup (seen l : List String) : (jsSetDedupAux seen l).Nodup := by
  induction l generalizing seen with
  | nil => simp [jsSetDedupAux]
  | cons d rest ih =>
    unfold jsSetDedupAux
    split
    · exact ih seen
    · refine List.nodup_cons.mpr ⟨fun hmem => ?_, ih (seen ++ [d])⟩
      exact not_mem_seen_jsSetDedupAux hmem (by simp)

theorem jsSetDedup_nodup (l : List String) : (jsSetDedup l).Nodup :=
  jsSetDedupAux_nodup [] l

/-!
## The spec's rolling-window count, for comparison
-/

/-- Modelled from the spec (§4.2): `countInRollingWindow(dateKeys,
windowSizeInDays, referenceDay)` counts the dateKeys whose calendar day
falls within `[referenceDay - (windowSizeInDays - 1), referenceDay]`
inclusive. Stated for comparison against `countRolling13Weeks`. -/
def countInRollingWindowSpec (dateKeys : List String) (windowSizeInDays referenceDay : Int) :
    Nat :=
  (dateKeys.filter fun k =>
    match parseDateKey k with
    | some day =>
      decide (referenceDay - (windowSizeInDays - 1) ≤ day) && decide (day ≤ referenceDay)
    | none => false).length

/-!
## Claim theorems
-/

/-- A concrete bound store state, used by the witnesses. -/
def sampleState : AttendanceState :=
  { dates := ["2025-01-01"], isLoading := false, error := none, _repository := some () }

/-- C1: when the repository's `toggleDate` call rejects, the store's
`toggleDate` restores the `dates` field to exactly the list held
immediately before the optimistic step, records the user-facing message in
`error`, and re-throws the rejected value to its caller. -/
theorem toggleDate_rollback (s : AttendanceState) (date : String) (err : Option String)
    (h : s._repository.isSome = true) :
    (toggleDate s date (.error err)).1.dates = s.dates
    ∧ (toggleDate s date (.error err)).1.error
        = some "Failed to update attendance. Please try again."
    ∧ (toggleDate s date (.error err)).2.1 = .error err := by
  obtain ⟨u, hu⟩ := Option.isSome_iff_exists.mp h
  unfold toggleDate toggleDateStart toggleDateSettle
  rw [hu]
  simp

/-- Witness for C1 at the spec's rollback scenario. -/
theorem toggleDate_rollback_witness :
    (toggleDate sampleState "2025-01-15" (.error (some "Network error"))).1.dates
      = sampleState.dates
    ∧ (toggleDate sampleState "2025-01-15" (.error (some "Network error"))).1.error
      = some "Failed to update attendance. Please try again."
    ∧ (toggleDate sampleState "2025-01-15" (.error (some "Network error"))).2.1
      = .error (some "Network error") :=
  toggleDate_rollback sampleState "2025-01-15" (some "Network error") (by decide)

/-- C2 (counterexample): with reference day 2025-01-31, the code counts
"2024-11-01", which lies exactly 91 days before the reference day — the
claimed window `[r - 90, r]` would exclude it. -/
theorem countRolling13Weeks_includes_day_91_back :
    countRolling13Weeks ["2024-11-01"] (daysFromCivil 2025 1 31) = 1
    ∧ countInRollingWindowSpec ["2024-11-01"] 91 (daysFromCivil 2025 1 31) = 0
    ∧ parseDateKey "2024-11-01" = some (daysFromCivil 2025 1 31 - 91) := by decide

/-- C2 (amended): `countRolling13Weeks` counts exactly the date keys whose
calendar day lies in the inclusive interval `[r - 91, r]` — a window of 92
calendar days ending on the reference day, i.e. `countInRollingWindow`
with window size 92, not 91. -/
theorem countRolling13Weeks_is_92_day_window (dates : List String) (today : Int) :
    countRolling13Weeks dates today = countInRollingWindowSpec dates 92 today := by
  unfold countRolling13Weeks countInRollingWindowSpec
  norm_num

/-- C3 (counterexample): `parseDateKey` does not fail on pattern-matching
strings whose components are not a real calendar date — it silently
coerces them to another day ("2025-13-01" to 2026-01-01, "2025-02-30" to
2025-03-02); and strings that do not match the fixed-width pattern are
not reported as `InvalidFormat` either — "2025-1-1" parses to the
ordinary valid date 2025-01-01 and "95-3-7" to 1995-03-07. -/
theorem parseDateKey_coerces_counterexample :
    (parseDateKey "2025-13-01").isSome = true
    ∧ parseDateKey "2025-13-01" = some (daysFromCivil 2026 1 1)
    ∧ (parseDateKey "2025-02-30").isSome = true
    ∧ parseDateKey "2025-02-30" = some (daysFromCivil 2025 3 2)
    ∧ parseDateKey "2025-1-1" = some (daysFromCivil 2025 1 1)
    ∧ parseDateKey "95-3-7" = some (daysFromCivil 1995 3 7) := by decide

/-- C3 (amended): `parseDateKey` performs no validation and reports no
`InvalidFormat` or `InvalidCalendarDate` failure: every string matching
the fixed-width pattern parses to a Date, with out-of-range numeric
components silently rolled over to another calendar day rather than
rejected; and even strings that do not match the pattern can parse to
ordinary valid dates ("2025-1-1" to 2025-01-01, "95-3-7" to 1995-03-07
under the constructor's two-digit-year rule). -/
theorem parseDateKey_never_rejects :
    (∀ key : String, matchesDateKeyShape key = true → (parseDateKey key).isSome = true)
    ∧ parseDateKey "2025-13-01" = some (daysFromCivil 2026 1 1)
    ∧ parseDateKey "2025-02-30" = some (daysFromCivil 2025 3 2)
    ∧ parseDateKey "2025-1-1" = some (daysFromCivil 2025 1 1)
    ∧ parseDateKey "95-3-7" = some (daysFromCivil 1995 3 7) :=
  ⟨parseDateKey_shape_isSome, by decide, by decide, by decide, by decide⟩

/-- Witness for C3 at a pattern-matching non-date. -/
theorem parseDateKey_never_rejects_witness :
    matchesDateKeyShape "2025-06-31" = true ∧ (parseDateKey "2025-06-31").isSome = true :=
  ⟨by decide, parseDateKey_never_rejects.1 "2025-06-31" (by decide)⟩

/-- C4: the rolling-window scenario of the spec; "2024-11-01" (exactly 91
days before the reference day) is counted, "2024-10-31" (92 days) is not. -/
theorem countRolling13Weeks_scenario :
    countRolling13Weeks ["2024-11-01", "2024-11-15", "2025-01-15", "2025-01-31"]
      (daysFromCivil 2025 1 31) = 4
    ∧ countRolling13Weeks
      ["2024-11-01", "2024-11-15", "2025-01-15", "2025-01-31", "2024-10-31"]
      (daysFromCivil 2025 1 31) = 4
    ∧ parseDateKey "2024-11-01" = some (daysFromCivil 2025 1 31 - 91)
    ∧ parseDateKey "2024-10-31" = some (daysFromCivil 2025 1 31 - 92) := by decide

/-- C5 (counterexample): `parseDateKey` accepts "2025-02-30" and maps it
to 2025-03-02, so re-encoding does not return the key; and a valid day
with a two-digit year (99-01-01) re-parses as 1999-01-01 under the
constructor's two-digit-year rule, breaking the other direction. -/
theorem codec_roundtrip_counterexample :
    (parseDateKey "2025-02-30").map formatDateKey = some "2025-03-02"
    ∧ parseDateKey (formatDateKey (daysFromCivil 99 1 1)) = some (daysFromCivil 1999 1 1)
    ∧ daysFromCivil 1999 1 1 ≠ daysFromCivil 99 1 1
    ∧ daysInMonth 99 1 = 31 := by decide

/-- C5 (amended): for every real calendar day with year in 100..9999,
decoding the encoded key returns exactly that day and its components; and
on canonical keys (the image of `formatDateKey`) decode inverts encode. -/
theorem codec_roundtrip_amended (y m d : Int) (hy1 : 100 ≤ y) (hy2 : y ≤ 9999)
    (hm1 : 1 ≤ m) (hm2 : m ≤ 12) (hd1 : 1 ≤ d) (hd2 : d ≤ daysInMonth y m) :
    parseDateKey (formatDateKey (daysFromCivil y m d)) = some (daysFromCivil y m d)
    ∧ civilFromDays (daysFromCivil y m d) = (y, m, d)
    ∧ formatDateKey (daysFromCivil y m d) = canonicalKey y m d
    ∧ parseDateKey (canonicalKey y m d) = some (daysFromCivil y m d) := by
  have h31 : d ≤ 31 := le_trans hd2 (daysInMonth_le_31 y m)
  have hfmt := format_eq_canonicalKey y m d hy1 hy2 hm1 hm2 hd1 hd2
  have hparse := parse_canonicalKey y m d hy1 hy2 hm1 hm2 hd1 h31
  exact ⟨by rw [hfmt, hparse], civil_roundtrip y m d hm1 hm2 hd1 hd2, hfmt, hparse⟩

/-- Witness for C5 at 2025-01-15. -/
theorem codec_roundtrip_amended_witness :
    parseDateKey (formatDateKey (daysFromCivil 2025 1 15)) = some (daysFromCivil 2025 1 15)
    ∧ civilFromDays (daysFromCivil 2025 1 15) = (2025, 1, 15)
    ∧ formatDateKey (daysFromCivil 2025 1 15) = canonicalKey 2025 1 15
    ∧ parseDateKey (canonicalKey 2025 1 15) = some (daysFromCivil 2025 1 15) :=
  codec_roundtrip_amended 2025 1 15 (by decide) (by decide) (by decide) (by decide)
    (by decide) (by decide)

/-- C6: when the `getAllDates` call made by `hydrate` rejects, the `dates`
field is exactly the pre-hydration list, `error` holds the message, and
`isLoading` is false. -/
theorem hydrate_failure_preserves (s : AttendanceState) (err : Option String)
    (h : s._repository.isSome = true) :
    (hydrate s (.error err)).1.dates = s.dates
    ∧ (hydrate s (.error err)).1.error = some (hydrateErrorMessage err)
    ∧ (hydrate s (.error err)).1.isLoading = false := by
  obtain ⟨u, hu⟩ := Option.isSome_iff_exists.mp h
  unfold hydrate hydrateStart hydrateSettle
  rw [hu]
  simp

/-- Witness for C6. -/
theorem hydrate_failure_preserves_witness :
    (hydrate sampleState (.error (some "Network error"))).1.dates = sampleState.dates
    ∧ (hydrate sampleState (.error (some "Network error"))).1.error
      = some (hydrateErrorMessage (some "Network error"))
    ∧ (hydrate sampleState (.error (some "Network error"))).1.isLoading = false :=
  hydrate_failure_preserves sampleState (some "Network error") (by decide)

/-- C7: the synchronous prefix of `toggleDate` flips the key's membership
and clears the error, so any read of `isPresent` while the repository call
is pending observes the optimistic value. -/
theorem toggleDate_optimistic_visible (s : AttendanceState) (date : String)
    (h : s._repository.isSome = true) :
    isPresent (toggleDateStart s date).1 date = !(isPresent s date)
    ∧ (toggleDateStart s date).1.error = none := by
  obtain ⟨u, hu⟩ := Option.isSome_iff_exists.mp h
  unfold toggleDateStart isPresent
  rw [hu]
  simp only [Option.isNone_some, Bool.false_eq_true, if_false]
  refine ⟨?_, by trivial⟩
  cases hc : s.dates.contains date with
  | true =>
    simp only [hc, if_true, Bool.not_true]
    rw [Bool.eq_false_iff]
    intro hcontains
    have hmem := contains_iff_mem.mp hcontains
    have := (List.mem_filter.mp hmem).2
    simp at this
  | false =>
    simp only [hc, Bool.false_eq_true, if_false, Bool.not_false]
    exact contains_iff_mem.mpr (by simp)

/-- Witness for C7. -/
theorem toggleDate_optimistic_visible_witness :
    isPresent (toggleDateStart sampleState "2025-01-15").1 "2025-01-15"
      = !(isPresent sampleState "2025-01-15")
    ∧ (toggleDateStart sampleState "2025-01-15").1.error = none :=
  toggleDate_optimistic_visible sampleState "2025-01-15" (by decide)

/-- C8: the `dates` field never holds duplicates: true initially, and
preserved by `toggleDate`, `replaceAll`, `mergeWith`, `clearAll`
unconditionally, and by `hydrate` when the repository returns a
duplicate-free list; `replaceAll` collapses duplicated input. -/
theorem store_dates_nodup_invariant :
    initialState.dates.Nodup
    ∧ (∀ (s : AttendanceState) (date : String) (out : Except (Option String) Bool),
        s.dates.Nodup → (toggleDate s date out).1.dates.Nodup)
    ∧ (∀ (s : AttendanceState) (l : List String), (replaceAll s l).dates.Nodup)
    ∧ (∀ (s : AttendanceState) (l : List String), (mergeWith s l).dates.Nodup)
    ∧ (∀ s : AttendanceState, (clearAll s).dates.Nodup)
    ∧ (∀ (s : AttendanceState) (out : Except (Option String) (List String)),
        s.dates.Nodup → (∀ l, out = .ok l → l.Nodup) → (hydrate s out).1.dates.Nodup)
    ∧ (replaceAll initialState ["2025-02-01", "2025-02-15", "2025-02-01"]).dates
        = ["2025-02-01", "2025-02-15"] := by
  refine ⟨by simp [initialState], ?_, fun s l => jsSetDedup_nodup l,
    fun s l => jsSetDedup_nodup _, fun s => List.nodup_nil, ?_, by decide⟩
  · intro s date out hnd
    unfold toggleDate toggleDateStart toggleDateSettle
    cases hrep : s._repository with
    | none => simpa [hrep]
    | some u =>
      cases out with
      | error e => simpa [hrep]
      | ok b =>
        simp only [hrep, Option.isNone_some, Bool.false_eq_true, if_false]
        cases hc : s.dates.contains date with
        | true => simpa [hc] using hnd.filter _
        | false =>
          simp only [hc, Bool.false_eq_true, if_false]
          have hnotmem : ¬ date ∈ s.dates := by
            intro hmem
            rw [← contains_iff_mem] at hmem
            rw [hc] at hmem
            exact Bool.false_ne_true hmem
          simp [List.nodup_append, hnd, hnotmem]
  · intro s out hnd hok
    unfold hydrate hydrateStart hydrateSettle
    cases hrep : s._repository with
    | none => simpa [hrep]
    | some u =>
      cases out with
      | ok l => simpa [hrep] using hok l rfl
      | error e => simpa [hrep]

/-- Witness for C8. -/
theorem store_dates_nodup_invariant_witness :
    (toggleDate sampleState "2025-01-15" (.ok true)).1.dates.Nodup :=
  store_dates_nodup_invariant.2.1 sampleState "2025-01-15" (.ok true) (by decide)

/-- C9: with no repository bound, `hydrate` and `toggleDate` log the
condition and return without throwing and without touching any state
field. -/
theorem unbound_repository_noop (s : AttendanceState)
    (hout : Except (Option String) (List String)) (date : String)
    (tout : Except (Option String) Bool) (h : s._repository = none) :
    hydrate s hout = (s, ["Repository not initialized. Call setRepository first."])
    ∧ toggleDate s date tout
        = (s, .ok (), ["Repository not initialized. Call setRepository first."]) := by
  unfold hydrate hydrateStart toggleDate toggleDateStart
  simp [h]

/-- Witness for C9. -/
theorem unbound_repository_noop_witness :
    hydrate initialState (.ok ["2025-01-01"])
      = (initialState, ["Repository not initialized. Call setRepository first."])
    ∧ toggleDate initialState "2025-01-15" (.ok true)
      = (initialState, .ok (), ["Repository not initialized. Call setRepository first."]) :=
  unbound_repository_noop initialState (.ok ["2025-01-01"]) "2025-01-15" (.ok true) (by decide)

/-- C10: `replaceAll` and `mergeWith` modify only the `dates` field; the
loading flag, the error field, and the repository slot are untouched. -/
theorem replaceAll_mergeWith_frame (s : AttendanceState) (l : List String) :
    (replaceAll s l).isLoading = s.isLoading ∧ (replaceAll s l).error = s.error
    ∧ (replaceAll s l)._repository = s._repository
    ∧ (mergeWith s l).isLoading = s.isLoading ∧ (mergeWith s l).error = s.error
    ∧ (mergeWith s l)._repository = s._repository :=
  ⟨rfl, rfl, rfl, rfl, rfl, rfl⟩
